import Mathlib

/-!
Verification of the snake game engine in `src/app/page.tsx`.

The React component keeps its game state in six `useState` cells
(`snake`, `direction`, `peach`, `gameOver`, `score`, `isPlaying`); the
functions `moveSnake`, `generatePeach`, `handleKeyPress`,
`handleMobileControl`, `startGame` and `resetGame` are embedded below as
pure transformations of a `GameState` record.  Randomness
(`Math.floor(Math.random() * GRID_SIZE)`) is modelled by an explicit
sampling stream `Nat → Position`; the `do … while` retry loop of
`generatePeach` becomes a search for the first sampled cell outside the
occupied list.
-/

namespace Snake

/-- Mirror of the `Position` interface: an integer pair.  Coordinates are
`Int` because the source computes `head.x - 1` / `head.y - 1`, which can
go negative before the wall check. -/
structure Position where
  x : Int
  y : Int
deriving DecidableEq, Repr

@[simp] theorem Position.mk_x (a b : Int) : (Position.mk a b).x = a := rfl

@[simp] theorem Position.mk_y (a b : Int) : (Position.mk a b).y = b := rfl

/-- Mirror of `type Direction = 'UP' | 'DOWN' | 'LEFT' | 'RIGHT'`. -/
inductive Direction where
  | UP
  | DOWN
  | LEFT
  | RIGHT
deriving DecidableEq, Repr

/-- `const GRID_SIZE = 20`. -/
def GRID_SIZE : Int := 20

/-- `const MAX_PEACHES = 10`. -/
def MAX_PEACHES : Nat := 10

/-- `const INITIAL_SNAKE: Position[] = [{ x: 10, y: 10 }]`. -/
def INITIAL_SNAKE : List Position := [⟨10, 10⟩]

/-- `const INITIAL_DIRECTION: Direction = 'RIGHT'`. -/
def INITIAL_DIRECTION : Direction := Direction.RIGHT

/-- The six `useState` cells of the component, gathered in a record. -/
structure GameState where
  snake : List Position
  direction : Direction
  peach : Position
  gameOver : Bool
  score : Nat
  isPlaying : Bool
deriving DecidableEq, Repr

/-- The `useState` initial values:
`snake = INITIAL_SNAKE`, `direction = 'RIGHT'`, `peach = {x:15,y:10}`,
`gameOver = false`, `score = 0`, `isPlaying = false`. -/
def initState : GameState :=
  { snake := INITIAL_SNAKE
    direction := INITIAL_DIRECTION
    peach := ⟨15, 10⟩
    gameOver := false
    score := 0
    isPlaying := false }

/-- Componentwise addition of positions. -/
def posAdd (a b : Position) : Position := ⟨a.x + b.x, a.y + b.y⟩

/-- The `switch (direction)` block of `moveSnake`:
UP decrements `y`, DOWN increments `y`, LEFT decrements `x`,
RIGHT increments `x`. -/
def delta : Direction → Position
  | Direction.UP => ⟨0, -1⟩
  | Direction.DOWN => ⟨0, 1⟩
  | Direction.LEFT => ⟨-1, 0⟩
  | Direction.RIGHT => ⟨1, 0⟩

/-- The head cell the next tick would move to: `newSnake[0]` shifted by
the current direction (`headD ⟨0,0⟩` is only a formal default; every
reachable state has a nonempty snake). -/
def nextHead (s : GameState) : Position :=
  posAdd (s.snake.headD ⟨0, 0⟩) (delta s.direction)

/-- The wall test of `moveSnake`, verbatim:
`head.x < 0 || head.x >= GRID_SIZE || head.y < 0 || head.y >= GRID_SIZE`. -/
def wallHit (p : Position) : Prop :=
  p.x < 0 ∨ GRID_SIZE ≤ p.x ∨ p.y < 0 ∨ GRID_SIZE ≤ p.y

instance (p : Position) : Decidable (wallHit p) := by
  unfold wallHit; infer_instance

/-- Membership of the `[0,N)×[0,N)` grid, the complement of `wallHit`. -/
def inGrid (p : Position) : Prop :=
  0 ≤ p.x ∧ p.x < GRID_SIZE ∧ 0 ≤ p.y ∧ p.y < GRID_SIZE

instance (p : Position) : Decidable (inGrid p) := by
  unfold inGrid; infer_instance

theorem wallHit_iff (p : Position) : wallHit p ↔ ¬ inGrid p := by
  unfold wallHit inGrid; omega

/-- `moveSnake`, embedded.  The guard is
`if (gameOver || !isPlaying || score >= MAX_PEACHES) return`; the branch
structure below is the source's wall check, self-collision check,
`unshift`, peach check (with the `score + 1 < MAX_PEACHES` split) and
`pop`.  The call `generatePeach(newSnake)` is abstracted by the
parameter `gen`, applied to the post-growth snake exactly as in the
source. -/
def moveSnake (gen : List Position → Position) (s : GameState) : GameState :=
  if s.gameOver = true ∨ s.isPlaying = false ∨ MAX_PEACHES ≤ s.score then s
  else if wallHit (nextHead s) then
    { s with gameOver := true, isPlaying := false }
  else if nextHead s ∈ s.snake then
    { s with gameOver := true, isPlaying := false }
  else if nextHead s = s.peach then
    if s.score + 1 < MAX_PEACHES then
      { s with snake := nextHead s :: s.snake
               score := s.score + 1
               peach := gen (nextHead s :: s.snake) }
    else
      { s with snake := nextHead s :: s.snake
               score := s.score + 1
               isPlaying := false }
  else
    { s with snake := (nextHead s :: s.snake).dropLast }

/-- Which branch of `moveSnake` a tick from `s` takes (the source reports
outcomes only through the state cells; this observer names the branch). -/
inductive TickOutcome where
  | noop
  | wallCollision
  | selfCollision
  | ateTarget
  | normalMove
deriving DecidableEq, Repr

/-- Branch observer for `moveSnake`: same guard and tests, in the same
order. -/
def tickOutcome (s : GameState) : TickOutcome :=
  if s.gameOver = true ∨ s.isPlaying = false ∨ MAX_PEACHES ≤ s.score then
    TickOutcome.noop
  else if wallHit (nextHead s) then TickOutcome.wallCollision
  else if nextHead s ∈ s.snake then TickOutcome.selfCollision
  else if nextHead s = s.peach then TickOutcome.ateTarget
  else TickOutcome.normalMove

/-- The spec's lifecycle phases. -/
inductive Phase where
  | IDLE
  | ACTIVE
  | WON
  | LOST
deriving DecidableEq, Repr

/-- Phase observer, read off the component's flags the way the UI does:
`isGameWon = score >= MAX_PEACHES` shows Victory, `gameOver` (when not
won) shows Game Over, otherwise the state is active while `isPlaying`
and idle before a game starts. -/
def phase (s : GameState) : Phase :=
  if MAX_PEACHES ≤ s.score then Phase.WON
  else if s.gameOver = true then Phase.LOST
  else if s.isPlaying = true then Phase.ACTIVE
  else Phase.IDLE

theorem phase_active_iff (s : GameState) :
    phase s = Phase.ACTIVE ↔
      s.score < MAX_PEACHES ∧ s.gameOver = false ∧ s.isPlaying = true := by
  unfold phase
  split_ifs with h1 h2 h3 <;> simp_all

theorem phase_not_active_iff (s : GameState) :
    phase s ≠ Phase.ACTIVE ↔
      (s.gameOver = true ∨ s.isPlaying = false ∨ MAX_PEACHES ≤ s.score) := by
  rw [Ne, phase_active_iff]
  rcases s with ⟨sn, d, p, go, sc, ip⟩
  cases go <;> cases ip <;> simp

/-- `handleKeyPress`, embedded: the `event.key.toLowerCase()` switch over
`'w'`, `'s'`, `'a'`, `'d'`, each guarded against reversing the current
direction, behind the guard `if (gameOver && score < MAX_PEACHES) return`. -/
def handleKeyPress (key : Char) (s : GameState) : GameState :=
  if s.gameOver = true ∧ s.score < MAX_PEACHES then s
  else if key.toLower = 'w' then
    (if s.direction ≠ Direction.DOWN then { s with direction := Direction.UP } else s)
  else if key.toLower = 's' then
    (if s.direction ≠ Direction.UP then { s with direction := Direction.DOWN } else s)
  else if key.toLower = 'a' then
    (if s.direction ≠ Direction.RIGHT then { s with direction := Direction.LEFT } else s)
  else if key.toLower = 'd' then
    (if s.direction ≠ Direction.LEFT then { s with direction := Direction.RIGHT } else s)
  else s

/-- `handleMobileControl`, embedded: same reversal guards, keyed on a
`Direction` value, behind the same `gameOver && score < MAX_PEACHES`
guard. -/
def handleMobileControl (newDirection : Direction) (s : GameState) : GameState :=
  if s.gameOver = true ∧ s.score < MAX_PEACHES then s
  else if newDirection = Direction.UP then
    (if s.direction ≠ Direction.DOWN then { s with direction := Direction.UP } else s)
  else if newDirection = Direction.DOWN then
    (if s.direction ≠ Direction.UP then { s with direction := Direction.DOWN } else s)
  else if newDirection = Direction.LEFT then
    (if s.direction ≠ Direction.RIGHT then { s with direction := Direction.LEFT } else s)
  else
    (if s.direction ≠ Direction.LEFT then { s with direction := Direction.RIGHT } else s)

/-- `startGame`, embedded: it writes fresh values into every state cell
(the previous state is not read), spawning the peach from the initial
snake via `generatePeach`, abstracted by `gen`. -/
def startGame (gen : List Position → Position) : GameState :=
  { snake := INITIAL_SNAKE
    direction := INITIAL_DIRECTION
    peach := gen INITIAL_SNAKE
    gameOver := false
    score := 0
    isPlaying := true }

/-- `resetGame`, embedded: every cell is written back to its hardcoded
initial value, including `setPeach({ x: 15, y: 10 })`. -/
def resetGame : GameState :=
  { snake := INITIAL_SNAKE
    direction := INITIAL_DIRECTION
    peach := ⟨15, 10⟩
    gameOver := false
    score := 0
    isPlaying := false }

/-! ### The grid as a list, and deterministic spawners

`generatePeach` draws `Math.floor(Math.random() * GRID_SIZE)` samples for
each coordinate, so every sampled cell lies in `[0,20)×[0,20)`.  The 400
grid cells are enumerated once, to state exhaustion facts and to build
concrete spawners satisfying the contract `moveSnake` relies on. -/

/-- All 400 cells of the `[0,20)×[0,20)` grid. -/
def allCells : List Position :=
  (List.range 400).map (fun i => ⟨(i % 20 : Nat), (i / 20 : Nat)⟩)

theorem allCells_inGrid : ∀ p ∈ allCells, inGrid p := by
  intro p hp
  obtain ⟨i, hi, rfl⟩ := List.mem_map.mp hp
  have hi400 : i < 400 := List.mem_range.mp hi
  unfold inGrid GRID_SIZE
  simp only [Position.mk_x, Position.mk_y]
  omega

theorem mem_allCells_of_inGrid {p : Position} (hp : inGrid p) : p ∈ allCells := by
  obtain ⟨x, y⟩ := p
  unfold inGrid GRID_SIZE at hp
  simp only [Position.mk_x, Position.mk_y] at hp
  obtain ⟨hx0, hx, hy0, hy⟩ := hp
  refine List.mem_map.mpr ⟨x.toNat + 20 * y.toNat, List.mem_range.mpr (by omega), ?_⟩
  have hx20 : x.toNat < 20 := by omega
  congr 1 <;> omega

theorem allCells_nodup : allCells.Nodup := by
  refine List.Nodup.map ?_ (List.nodup_range 400)
  intro i j hij
  have hx : ((i % 20 : Nat) : Int) = ((j % 20 : Nat) : Int) :=
    congrArg Position.x hij
  have hy : ((i / 20 : Nat) : Int) = ((j / 20 : Nat) : Int) :=
    congrArg Position.y hij
  omega

theorem allCells_length : allCells.length = 400 := by
  simp [allCells]

/-- Any list of fewer than 400 positions leaves a free grid cell. -/
theorem exists_free (occ : List Position) (h : occ.length < 400) :
    ∃ c, inGrid c ∧ c ∉ occ := by
  by_contra hno
  push_neg at hno
  have hsub : allCells ⊆ occ := fun c hc => hno c (allCells_inGrid c hc)
  have hle := (List.subperm_of_subset allCells_nodup hsub).length_le
  rw [allCells_length] at hle
  omega

/-- A deterministic spawner: the first grid cell (in `allCells` order)
outside the occupied list.  Used to witness that valid spawners exist. -/
def firstFree (occ : List Position) : Position :=
  (allCells.find? (fun c => decide (c ∉ occ))).getD ⟨0, 0⟩

/-- The contract `moveSnake` gets from `generatePeach` whenever the
retry loop returns: an in-grid cell outside the occupied list, provided
some free grid cell exists at all. -/
def SpawnOk (gen : List Position → Position) : Prop :=
  ∀ occ : List Position, (∃ c, inGrid c ∧ c ∉ occ) →
    inGrid (gen occ) ∧ gen occ ∉ occ

theorem firstFree_spec (occ : List Position)
    (h : ∃ c, inGrid c ∧ c ∉ occ) :
    inGrid (firstFree occ) ∧ firstFree occ ∉ occ := by
  obtain ⟨c, hc, hcn⟩ := h
  unfold firstFree
  cases hfind : allCells.find? (fun c => decide (c ∉ occ)) with
  | none =>
      have hall := List.find?_eq_none.mp hfind c (mem_allCells_of_inGrid hc)
      simp at hall
      exact absurd hall hcn
  | some r =>
      refine ⟨allCells_inGrid r (List.mem_of_find?_eq_some hfind), ?_⟩
      simpa using List.find?_some hfind

theorem spawnOk_firstFree : SpawnOk firstFree := fun occ h => firstFree_spec occ h

/-- A spawner that places the peach at `p` whenever that is legal and
falls back to `firstFree` otherwise; used to build concrete game traces. -/
def genAt (p : Position) (occ : List Position) : Position :=
  if inGrid p ∧ p ∉ occ then p else firstFree occ

theorem spawnOk_genAt (p : Position) : SpawnOk (genAt p) := by
  intro occ h
  unfold genAt
  split
  · next hc => exact hc
  · exact firstFree_spec occ h

/-! ### `generatePeach` itself

The body of `generatePeach` is a `do … while` reject-and-retry loop over
a random stream.  The stream is the explicit parameter `rand`; the loop
terminates exactly when some sample avoids the occupied list, and in
that case it returns the first such sample. -/

/-- Termination condition of the `do … while` loop in `generatePeach`:
some sample of the stream lies outside the occupied list.  While this
fails, the loop keeps drawing. -/
def generatePeachFound (rand : Nat → Position) (occupied : List Position) : Prop :=
  ∃ k, rand k ∉ occupied

instance (rand : Nat → Position) (occupied : List Position) :
    DecidablePred (fun k => rand k ∉ occupied) := fun _ => by infer_instance

/-- `generatePeach`, embedded: the value of the first sample that escapes
the occupied list (the loop exit); defined only under the proof that the
loop exits. -/
def generatePeach (rand : Nat → Position) (occupied : List Position)
    (h : generatePeachFound rand occupied) : Position :=
  rand (Nat.find h)

/-- Claim C6 (amended): whenever the retry loop of `generatePeach`
exits — that is, the stream eventually samples a cell outside
`occupied` — the returned cell is not a member of `occupied`, and lies
on the grid provided the stream samples grid cells, as
`Math.floor(Math.random() * GRID_SIZE)` always does. -/
theorem generatePeach_spec (rand : Nat → Position) (occupied : List Position)
    (h : generatePeachFound rand occupied) (hr : ∀ k, inGrid (rand k)) :
    inGrid (generatePeach rand occupied h) ∧
    generatePeach rand occupied h ∉ occupied :=
  ⟨hr _, Nat.find_spec h⟩

/-- A concrete exit witness for `generatePeach`: the constant stream at
(3,4) escapes the occupied list [(0,0)] at its first sample. -/
theorem generatePeach_found_example :
    generatePeachFound (fun _ => ⟨3, 4⟩) [⟨0, 0⟩] := ⟨0, by decide⟩

/-- Witness for `generatePeach_spec` at the concrete stream and occupied
list of `generatePeach_found_example`. -/
theorem generatePeach_spec_witness :
    inGrid (generatePeach (fun _ => ⟨3, 4⟩) [⟨0, 0⟩] generatePeach_found_example) ∧
    generatePeach (fun _ => ⟨3, 4⟩) [⟨0, 0⟩] generatePeach_found_example ∉
      [(⟨0, 0⟩ : Position)] :=
  generatePeach_spec _ _ generatePeach_found_example
    (fun _ => (by decide : inGrid ⟨3, 4⟩))

/-- Claim C6 counterexample: when the occupied list is the entire grid
and the stream samples grid cells (here constantly (0,0)), the exit
condition of the `do … while` loop holds for no sample index: the loop
never terminates.  In particular `generatePeach` cannot fail with an
`ExhaustedGrid` condition — no such outcome exists in the code. -/
theorem full_grid_spawn_never_exits :
    ¬ generatePeachFound (fun _ => (⟨0, 0⟩ : Position)) allCells := by
  rintro ⟨k, hk⟩
  have h00 : (⟨0, 0⟩ : Position) ∈ allCells :=
    mem_allCells_of_inGrid (by decide)
  exact hk h00

/-! ### Reachability

A step of the running component is one of: a game-loop tick
(`moveSnake`), a keyboard event (`handleKeyPress`), a touch event
(`handleMobileControl`), pressing Start/Play Again (`startGame`), or
pressing Reset (`resetGame`).  Ticks and starts consult `generatePeach`;
the spawner they use is an arbitrary function satisfying `SpawnOk`, the
contract `generatePeach` meets whenever its loop returns. -/

inductive Step : GameState → GameState → Prop where
  | tick (gen : List Position → Position) (hg : SpawnOk gen) (s : GameState) :
      Step s (moveSnake gen s)
  | keyEvent (key : Char) (s : GameState) : Step s (handleKeyPress key s)
  | mobileEvent (d : Direction) (s : GameState) : Step s (handleMobileControl d s)
  | startEvent (gen : List Position → Position) (hg : SpawnOk gen) (s : GameState) :
      Step s (startGame gen)
  | resetEvent (s : GameState) : Step s resetGame

/-- States reachable from the component's initial render. -/
inductive Reachable : GameState → Prop where
  | init : Reachable initState
  | step {s t : GameState} : Reachable s → Step s t → Reachable t

/-- The inductive invariant: the snake is nonempty, its length tracks the
score, the score is capped, every segment is on the grid, and — as long
as the game is not yet won — the peach avoids the snake. -/
def Inv (s : GameState) : Prop :=
  s.snake ≠ [] ∧
  s.snake.length = s.score + 1 ∧
  s.score ≤ MAX_PEACHES ∧
  (∀ c ∈ s.snake, inGrid c) ∧
  (s.score < MAX_PEACHES → s.peach ∉ s.snake)

theorem inv_initState : Inv initState := by
  refine ⟨by decide, by decide, by decide, by decide, ?_⟩
  intro _
  decide

theorem inv_resetGame : Inv resetGame := by
  refine ⟨by decide, by decide, by decide, by decide, ?_⟩
  intro _
  decide

theorem inv_startGame (gen : List Position → Position) (hg : SpawnOk gen) :
    Inv (startGame gen) := by
  have h := hg INITIAL_SNAKE ⟨⟨0, 0⟩, by decide, by decide⟩
  refine ⟨show INITIAL_SNAKE ≠ [] by decide,
    show INITIAL_SNAKE.length = 0 + 1 by decide,
    show 0 ≤ MAX_PEACHES by decide, ?_, fun _ => h.2⟩
  intro c hc
  have hc10 : c = (⟨10, 10⟩ : Position) := by
    simpa [startGame, INITIAL_SNAKE] using hc
  subst hc10
  decide

/-- Direction events only rewrite the `direction` cell, so they preserve
the invariant. -/
theorem inv_handleKeyPress (key : Char) (s : GameState) (h : Inv s) :
    Inv (handleKeyPress key s) := by
  unfold handleKeyPress
  split_ifs <;> exact h

theorem inv_handleMobileControl (d : Direction) (s : GameState) (h : Inv s) :
    Inv (handleMobileControl d s) := by
  unfold handleMobileControl
  split_ifs <;> exact h

theorem inGrid_of_not_wallHit {p : Position} (h : ¬ wallHit p) : inGrid p :=
  not_not.mp (fun hn => h ((wallHit_iff p).mpr hn))

/-- A tick preserves the invariant. -/
theorem inv_moveSnake (gen : List Position → Position) (hg : SpawnOk gen)
    (s : GameState) (h : Inv s) : Inv (moveSnake gen s) := by
  obtain ⟨hne, hlen, hsc, hcells, hpe⟩ := h
  have hM : MAX_PEACHES = 10 := rfl
  unfold moveSnake
  split_ifs with hguard hwall hself heat hlt
  · exact ⟨hne, hlen, hsc, hcells, hpe⟩
  · exact ⟨hne, hlen, hsc, hcells, hpe⟩
  · exact ⟨hne, hlen, hsc, hcells, hpe⟩
  · -- target consumed, game not yet won: grow and respawn
    have hscore : s.score < MAX_PEACHES := by omega
    have hfree : ∃ c, inGrid c ∧ c ∉ (nextHead s :: s.snake) :=
      exists_free _ (by rw [List.length_cons, hlen]; omega)
    have hgen := hg _ hfree
    refine ⟨List.cons_ne_nil _ _, ?_, ?_, ?_, fun _ => hgen.2⟩
    · show (nextHead s :: s.snake).length = s.score + 1 + 1
      rw [List.length_cons, hlen]
    · show s.score + 1 ≤ MAX_PEACHES
      omega
    · show ∀ c ∈ nextHead s :: s.snake, inGrid c
      intro c hc
      rcases List.mem_cons.mp hc with rfl | hc
      · exact inGrid_of_not_wallHit hwall
      · exact hcells c hc
  · -- target consumed, MAX_PEACHES reached: grow, stop playing
    have hscore : s.score < MAX_PEACHES := by omega
    refine ⟨List.cons_ne_nil _ _, ?_, ?_, ?_, ?_⟩
    · show (nextHead s :: s.snake).length = s.score + 1 + 1
      rw [List.length_cons, hlen]
    · show s.score + 1 ≤ MAX_PEACHES
      omega
    · show ∀ c ∈ nextHead s :: s.snake, inGrid c
      intro c hc
      rcases List.mem_cons.mp hc with rfl | hc
      · exact inGrid_of_not_wallHit hwall
      · exact hcells c hc
    · show s.score + 1 < MAX_PEACHES → s.peach ∉ nextHead s :: s.snake
      intro hcon
      exact absurd hcon hlt
  · -- no target: move head, drop tail
    have hscore : s.score < MAX_PEACHES := by omega
    have hkeep : s.peach ∉ nextHead s :: s.snake := by
      rw [List.mem_cons]
      push_neg
      exact ⟨fun hq => heat hq.symm, hpe hscore⟩
    have hsub := (List.dropLast_sublist (nextHead s :: s.snake)).subset
    refine ⟨?_, ?_, hsc, ?_, ?_⟩
    · show (nextHead s :: s.snake).dropLast ≠ []
      have : (nextHead s :: s.snake).dropLast.length = s.score + 1 := by
        rw [List.length_dropLast_cons, hlen]
      intro hnil
      rw [hnil] at this
      simp at this
    · show (nextHead s :: s.snake).dropLast.length = s.score + 1
      rw [List.length_dropLast_cons, hlen]
    · show ∀ c ∈ (nextHead s :: s.snake).dropLast, inGrid c
      intro c hc
      rcases List.mem_cons.mp (hsub hc) with rfl | hc2
      · exact inGrid_of_not_wallHit hwall
      · exact hcells c hc2
    · show s.score < MAX_PEACHES → s.peach ∉ (nextHead s :: s.snake).dropLast
      intro _ hmem
      exact hkeep (hsub hmem)

theorem inv_step {s t : GameState} (h : Inv s) (hst : Step s t) : Inv t := by
  cases hst with
  | tick gen hg _ => exact inv_moveSnake gen hg _ h
  | keyEvent k _ => exact inv_handleKeyPress k _ h
  | mobileEvent d _ => exact inv_handleMobileControl d _ h
  | startEvent gen hg _ => exact inv_startGame gen hg
  | resetEvent _ => exact inv_resetGame

/-- Every reachable state satisfies the inductive invariant. -/
theorem inv_reachable {s : GameState} (h : Reachable s) : Inv s := by
  induction h with
  | init => exact inv_initState
  | step _ hst ih => exact inv_step ih hst

/-! ### Per-tick behaviour while ACTIVE -/

theorem active_guard {s : GameState} (hA : phase s = Phase.ACTIVE) :
    ¬ (s.gameOver = true ∨ s.isPlaying = false ∨ MAX_PEACHES ≤ s.score) := by
  obtain ⟨hsc, hgo, hip⟩ := (phase_active_iff s).mp hA
  simp [hgo, hip]
  omega

theorem phase_eq_lost {t : GameState} (h1 : t.gameOver = true)
    (h2 : t.score < MAX_PEACHES) : phase t = Phase.LOST := by
  unfold phase
  rw [if_neg (by omega), if_pos h1]

/-- Claim C7: a tick is a complete no-op (returns the state unchanged)
whenever the phase is not ACTIVE — in particular once the phase is
terminal (WON or LOST), Body, Target and Score never change again. -/
theorem tick_noop_unless_active (gen : List Position → Position)
    (s : GameState) (h : phase s ≠ Phase.ACTIVE) : moveSnake gen s = s := by
  unfold moveSnake
  rw [if_pos ((phase_not_active_iff s).mp h)]

/-- Witness for `tick_noop_unless_active` at a concrete LOST state. -/
theorem tick_noop_unless_active_witness :
    moveSnake firstFree
        { snake := [⟨3, 3⟩], direction := Direction.RIGHT, peach := ⟨1, 1⟩,
          gameOver := true, score := 0, isPlaying := false } =
      { snake := [⟨3, 3⟩], direction := Direction.RIGHT, peach := ⟨1, 1⟩,
        gameOver := true, score := 0, isPlaying := false } :=
  tick_noop_unless_active firstFree _ (by decide)

/-- Claim C2: on an ACTIVE tick whose new head lands on any current body
cell (the tail included, since the check precedes tail removal), the
game is lost: `gameOver` is set, play stops, the body is unchanged, the
phase observer reads LOST and the branch taken is the self-collision
one. -/
theorem self_collision_loses (gen : List Position → Position) (s : GameState)
    (hA : phase s = Phase.ACTIVE) (hcells : ∀ c ∈ s.snake, inGrid c)
    (hmem : nextHead s ∈ s.snake) :
    moveSnake gen s = { s with gameOver := true, isPlaying := false } ∧
    (moveSnake gen s).snake = s.snake ∧
    phase (moveSnake gen s) = Phase.LOST ∧
    tickOutcome s = TickOutcome.selfCollision := by
  have hguard := active_guard hA
  obtain ⟨hsc, hgo, hip⟩ := (phase_active_iff s).mp hA
  have hnw : ¬ wallHit (nextHead s) := fun hw =>
    (wallHit_iff _).mp hw (hcells _ hmem)
  have h1 : moveSnake gen s = { s with gameOver := true, isPlaying := false } := by
    unfold moveSnake
    rw [if_neg hguard, if_neg hnw, if_pos hmem]
  refine ⟨h1, by rw [h1], ?_, ?_⟩
  · rw [h1]
    exact phase_eq_lost rfl hsc
  · unfold tickOutcome
    rw [if_neg hguard, if_neg hnw, if_pos hmem]

/-- Witness for `self_collision_loses`: the new head is exactly the tail
cell that this tick would otherwise remove, and the game is lost. -/
theorem self_collision_loses_witness :
    moveSnake firstFree
        { snake := [⟨5, 5⟩, ⟨4, 5⟩, ⟨4, 6⟩, ⟨5, 6⟩], direction := Direction.DOWN,
          peach := ⟨0, 0⟩, gameOver := false, score := 3, isPlaying := true } =
      { snake := [⟨5, 5⟩, ⟨4, 5⟩, ⟨4, 6⟩, ⟨5, 6⟩], direction := Direction.DOWN,
        peach := ⟨0, 0⟩, gameOver := true, score := 3, isPlaying := false } ∧
    tickOutcome
        { snake := [⟨5, 5⟩, ⟨4, 5⟩, ⟨4, 6⟩, ⟨5, 6⟩], direction := Direction.DOWN,
          peach := ⟨0, 0⟩, gameOver := false, score := 3, isPlaying := true } =
      TickOutcome.selfCollision := by
  have h := self_collision_loses firstFree
    { snake := [⟨5, 5⟩, ⟨4, 5⟩, ⟨4, 6⟩, ⟨5, 6⟩], direction := Direction.DOWN,
      peach := ⟨0, 0⟩, gameOver := false, score := 3, isPlaying := true }
    (by decide) (by decide) (by decide)
  exact ⟨h.1, h.2.2.2⟩

/-- Claim C4: on an ACTIVE tick whose new head leaves `[0,N)×[0,N)`, the
game is lost: `gameOver` is set, play stops, the body is unchanged, the
phase observer reads LOST and the branch taken is the wall-collision
one. -/
theorem wall_collision_loses (gen : List Position → Position) (s : GameState)
    (hA : phase s = Phase.ACTIVE) (hout : ¬ inGrid (nextHead s)) :
    moveSnake gen s = { s with gameOver := true, isPlaying := false } ∧
    (moveSnake gen s).snake = s.snake ∧
    phase (moveSnake gen s) = Phase.LOST ∧
    tickOutcome s = TickOutcome.wallCollision := by
  have hguard := active_guard hA
  obtain ⟨hsc, hgo, hip⟩ := (phase_active_iff s).mp hA
  have hw : wallHit (nextHead s) := (wallHit_iff _).mpr hout
  have h1 : moveSnake gen s = { s with gameOver := true, isPlaying := false } := by
    unfold moveSnake
    rw [if_neg hguard, if_pos hw]
  refine ⟨h1, by rw [h1], ?_, ?_⟩
  · rw [h1]
    exact phase_eq_lost rfl hsc
  · unfold tickOutcome
    rw [if_neg hguard, if_pos hw]

/-- Witness for `wall_collision_loses`: the spec's Scenario B.  With
Body = [(0,5)] and Direction = LEFT, the computed head has `x = -1`,
so the tick loses with the body unchanged. -/
theorem wall_collision_loses_witness :
    (nextHead
        { snake := [⟨0, 5⟩], direction := Direction.LEFT, peach := ⟨9, 9⟩,
          gameOver := false, score := 0, isPlaying := true }).x = -1 ∧
    moveSnake firstFree
        { snake := [⟨0, 5⟩], direction := Direction.LEFT, peach := ⟨9, 9⟩,
          gameOver := false, score := 0, isPlaying := true } =
      { snake := [⟨0, 5⟩], direction := Direction.LEFT, peach := ⟨9, 9⟩,
        gameOver := true, score := 0, isPlaying := false } ∧
    phase (moveSnake firstFree
        { snake := [⟨0, 5⟩], direction := Direction.LEFT, peach := ⟨9, 9⟩,
          gameOver := false, score := 0, isPlaying := true }) = Phase.LOST ∧
    tickOutcome
        { snake := [⟨0, 5⟩], direction := Direction.LEFT, peach := ⟨9, 9⟩,
          gameOver := false, score := 0, isPlaying := true } =
      TickOutcome.wallCollision := by
  have h := wall_collision_loses firstFree
    { snake := [⟨0, 5⟩], direction := Direction.LEFT, peach := ⟨9, 9⟩,
      gameOver := false, score := 0, isPlaying := true }
    (by decide) (by decide)
  exact ⟨by decide, h.1, h.2.2.1, h.2.2.2⟩

/-- Claim C3: on an ACTIVE tick with no collision, the body grows by one
exactly when the new head is the peach, and keeps its length otherwise. -/
theorem growth_on_tick (gen : List Position → Position) (s : GameState)
    (hA : phase s = Phase.ACTIVE) (hin : inGrid (nextHead s))
    (hni : nextHead s ∉ s.snake) :
    (nextHead s = s.peach →
      (moveSnake gen s).snake.length = s.snake.length + 1) ∧
    (nextHead s ≠ s.peach →
      (moveSnake gen s).snake.length = s.snake.length) := by
  have hguard := active_guard hA
  have hnw : ¬ wallHit (nextHead s) := fun hw => (wallHit_iff _).mp hw hin
  by_cases heq : nextHead s = s.peach
  · by_cases hlt : s.score + 1 < MAX_PEACHES
    · have h1 : moveSnake gen s =
          { s with snake := nextHead s :: s.snake, score := s.score + 1,
                   peach := gen (nextHead s :: s.snake) } := by
        unfold moveSnake
        rw [if_neg hguard, if_neg hnw, if_neg hni, if_pos heq, if_pos hlt]
      refine ⟨fun _ => ?_, fun hne => absurd heq hne⟩
      rw [h1]
      show (nextHead s :: s.snake).length = s.snake.length + 1
      rw [List.length_cons]
    · have h1 : moveSnake gen s =
          { s with snake := nextHead s :: s.snake, score := s.score + 1,
                   isPlaying := false } := by
        unfold moveSnake
        rw [if_neg hguard, if_neg hnw, if_neg hni, if_pos heq, if_neg hlt]
      refine ⟨fun _ => ?_, fun hne => absurd heq hne⟩
      rw [h1]
      show (nextHead s :: s.snake).length = s.snake.length + 1
      rw [List.length_cons]
  · have h1 : moveSnake gen s = { s with snake := (nextHead s :: s.snake).dropLast } := by
      unfold moveSnake
      rw [if_neg hguard, if_neg hnw, if_neg hni, if_neg heq]
    refine ⟨fun hc => absurd hc heq, fun _ => ?_⟩
    rw [h1]
    show (nextHead s :: s.snake).dropLast.length = s.snake.length
    rw [List.length_dropLast_cons]

/-- Witness for `growth_on_tick`: the spec's Scenario A (consume, length
2 = 1 + 1) and a non-consuming variant (length stays 1). -/
theorem growth_on_tick_witness :
    (moveSnake firstFree
        { snake := [⟨10, 10⟩], direction := Direction.RIGHT, peach := ⟨11, 10⟩,
          gameOver := false, score := 0, isPlaying := true }).snake.length = 1 + 1 ∧
    (moveSnake firstFree
        { snake := [⟨10, 10⟩], direction := Direction.RIGHT, peach := ⟨15, 10⟩,
          gameOver := false, score := 0, isPlaying := true }).snake.length = 1 := by
  constructor
  · exact (growth_on_tick firstFree
      { snake := [⟨10, 10⟩], direction := Direction.RIGHT, peach := ⟨11, 10⟩,
        gameOver := false, score := 0, isPlaying := true }
      (by decide) (by decide) (by decide)).1 (by decide)
  · exact (growth_on_tick firstFree
      { snake := [⟨10, 10⟩], direction := Direction.RIGHT, peach := ⟨15, 10⟩,
        gameOver := false, score := 0, isPlaying := true }
      (by decide) (by decide) (by decide)).2 (by decide)

/-! ### Direction input handling -/

/-- The reverse of a direction; the handlers refuse exactly this input. -/
def opposite : Direction → Direction
  | Direction.UP => Direction.DOWN
  | Direction.DOWN => Direction.UP
  | Direction.LEFT => Direction.RIGHT
  | Direction.RIGHT => Direction.LEFT

/-- The WASD key that commands a direction. -/
def keyOf : Direction → Char
  | Direction.UP => 'w'
  | Direction.DOWN => 's'
  | Direction.LEFT => 'a'
  | Direction.RIGHT => 'd'

/-- On an ACTIVE, collision-free tick the new body's first cell is the
computed new head. -/
theorem moveSnake_headD (gen : List Position → Position) (s : GameState)
    (hA : phase s = Phase.ACTIVE) (hne : s.snake ≠ [])
    (hin : inGrid (nextHead s)) (hni : nextHead s ∉ s.snake) :
    (moveSnake gen s).snake.headD ⟨0, 0⟩ = nextHead s := by
  have hguard := active_guard hA
  have hnw : ¬ wallHit (nextHead s) := fun hw => (wallHit_iff _).mp hw hin
  unfold moveSnake
  rw [if_neg hguard, if_neg hnw, if_neg hni]
  split_ifs with heq hlt
  · rfl
  · rfl
  · show (nextHead s :: s.snake).dropLast.headD ⟨0, 0⟩ = nextHead s
    cases hsn : s.snake with
    | nil => exact absurd hsn hne
    | cons b t => rfl

/-- Claim C5: a single commanded direction that is the exact opposite of
the current one is silently ignored by both input handlers (the state is
returned unchanged, no error path exists), so the next tick still moves
the head one cell along the unchanged current direction. -/
theorem reversal_ignored (s : GameState) (d : Direction)
    (hA : phase s = Phase.ACTIVE) (hne : s.snake ≠ [])
    (hd : d = opposite s.direction) :
    handleMobileControl d s = s ∧
    handleKeyPress (keyOf d) s = s ∧
    (∀ gen, inGrid (nextHead s) → nextHead s ∉ s.snake →
      (moveSnake gen (handleMobileControl d s)).snake.headD ⟨0, 0⟩ =
        posAdd (s.snake.headD ⟨0, 0⟩) (delta s.direction)) := by
  subst hd
  obtain ⟨hsc, hgo, hip⟩ := (phase_active_iff s).mp hA
  have guardH : ¬ (s.gameOver = true ∧ s.score < MAX_PEACHES) := by simp [hgo]
  have h1 : handleMobileControl (opposite s.direction) s = s := by
    unfold handleMobileControl
    cases hdir : s.direction
    · rw [if_neg guardH, if_neg (by decide), if_pos (by decide), if_neg (by decide)]
    · rw [if_neg guardH, if_pos (by decide), if_neg (by decide)]
    · rw [if_neg guardH, if_neg (by decide), if_neg (by decide), if_neg (by decide),
        if_neg (by decide)]
    · rw [if_neg guardH, if_neg (by decide), if_neg (by decide), if_pos (by decide),
        if_neg (by decide)]
  have h2 : handleKeyPress (keyOf (opposite s.direction)) s = s := by
    unfold handleKeyPress
    cases hdir : s.direction
    · rw [if_neg guardH, if_neg (by decide), if_pos (by decide), if_neg (by decide)]
    · rw [if_neg guardH, if_pos (by decide), if_neg (by decide)]
    · rw [if_neg guardH, if_neg (by decide), if_neg (by decide), if_neg (by decide),
        if_pos (by decide), if_neg (by decide)]
    · rw [if_neg guardH, if_neg (by decide), if_neg (by decide), if_pos (by decide),
        if_neg (by decide)]
  refine ⟨h1, h2, ?_⟩
  intro gen hin hni
  rw [h1, moveSnake_headD gen s hA hne hin hni]
  rfl

/-- Witness for `reversal_ignored`: the spec's Scenario C.  Direction is
RIGHT, LEFT is commanded, the command is dropped and the tick moves the
head to (6,5). -/
theorem reversal_ignored_witness :
    handleMobileControl Direction.LEFT
        { snake := [⟨5, 5⟩, ⟨4, 5⟩, ⟨3, 5⟩], direction := Direction.RIGHT,
          peach := ⟨0, 0⟩, gameOver := false, score := 0, isPlaying := true } =
      { snake := [⟨5, 5⟩, ⟨4, 5⟩, ⟨3, 5⟩], direction := Direction.RIGHT,
        peach := ⟨0, 0⟩, gameOver := false, score := 0, isPlaying := true } ∧
    handleKeyPress 'a'
        { snake := [⟨5, 5⟩, ⟨4, 5⟩, ⟨3, 5⟩], direction := Direction.RIGHT,
          peach := ⟨0, 0⟩, gameOver := false, score := 0, isPlaying := true } =
      { snake := [⟨5, 5⟩, ⟨4, 5⟩, ⟨3, 5⟩], direction := Direction.RIGHT,
        peach := ⟨0, 0⟩, gameOver := false, score := 0, isPlaying := true } ∧
    (moveSnake firstFree
        (handleMobileControl Direction.LEFT
          { snake := [⟨5, 5⟩, ⟨4, 5⟩, ⟨3, 5⟩], direction := Direction.RIGHT,
            peach := ⟨0, 0⟩, gameOver := false, score := 0,
            isPlaying := true })).snake.headD ⟨0, 0⟩ = ⟨6, 5⟩ := by
  have h := reversal_ignored
    { snake := [⟨5, 5⟩, ⟨4, 5⟩, ⟨3, 5⟩], direction := Direction.RIGHT,
      peach := ⟨0, 0⟩, gameOver := false, score := 0, isPlaying := true }
    Direction.LEFT (by decide) (by decide) (by decide)
  exact ⟨h.1, h.2.1, (h.2.2 firstFree (by decide) (by decide)).trans (by decide)⟩

/-- Claim C10: two inputs between consecutive ticks defeat the reversal
guard, because each input is checked against the direction stored at
input time, which updates immediately.  Concretely: moving RIGHT, the
inputs UP then LEFT are both accepted (via touch or via the 'w'/'a'
keys), and the following tick moves the head one cell LEFT — exactly
opposite to the previous tick's movement. -/
theorem double_input_reverses :
    (moveSnake firstFree
        { snake := [⟨5, 5⟩], direction := Direction.RIGHT, peach := ⟨0, 0⟩,
          gameOver := false, score := 0, isPlaying := true }).snake = [⟨6, 5⟩] ∧
    (handleMobileControl Direction.UP
        (moveSnake firstFree
          { snake := [⟨5, 5⟩], direction := Direction.RIGHT, peach := ⟨0, 0⟩,
            gameOver := false, score := 0, isPlaying := true })).direction =
      Direction.UP ∧
    (handleMobileControl Direction.LEFT
        (handleMobileControl Direction.UP
          (moveSnake firstFree
            { snake := [⟨5, 5⟩], direction := Direction.RIGHT, peach := ⟨0, 0⟩,
              gameOver := false, score := 0,
              isPlaying := true }))).direction = Direction.LEFT ∧
    (moveSnake firstFree
        (handleMobileControl Direction.LEFT
          (handleMobileControl Direction.UP
            (moveSnake firstFree
              { snake := [⟨5, 5⟩], direction := Direction.RIGHT, peach := ⟨0, 0⟩,
                gameOver := false, score := 0,
                isPlaying := true })))).snake = [⟨5, 5⟩] ∧
    (handleKeyPress 'a'
        (handleKeyPress 'w'
          (moveSnake firstFree
            { snake := [⟨5, 5⟩], direction := Direction.RIGHT, peach := ⟨0, 0⟩,
              gameOver := false, score := 0,
              isPlaying := true }))).direction = Direction.LEFT := by
  decide

/-! ### Reachability consequences: bounds and target validity -/

/-- Claim C9: in every reachable state — whatever the phase — every body
cell lies in `[0,N)×[0,N)`. -/
theorem body_in_bounds_reachable {s : GameState} (h : Reachable s) :
    ∀ c ∈ s.snake, inGrid c :=
  (inv_reachable h).2.2.2.1

/-- Witness for `body_in_bounds_reachable` at the initial state and its
single body cell. -/
theorem body_in_bounds_witness : inGrid ⟨10, 10⟩ :=
  body_in_bounds_reachable Reachable.init ⟨10, 10⟩ (by decide)

/-- Claim C1 (amended): in every reachable state whose score is still
below MAX_PEACHES, the peach is not a member of the snake.  (On the
winning tick itself the consumed cell stays stored as the peach while
also becoming the new head, so the unrestricted claim fails — see
`won_state_peach_in_body`.) -/
theorem peach_avoids_snake_before_win {s : GameState} (h : Reachable s)
    (hsc : s.score < MAX_PEACHES) : s.peach ∉ s.snake :=
  (inv_reachable h).2.2.2.2 hsc

/-- Witness for `peach_avoids_snake_before_win` at the initial state. -/
theorem peach_avoids_snake_witness : initState.peach ∉ initState.snake :=
  peach_avoids_snake_before_win Reachable.init (by decide)

/-! ### A full winning play-through

A concrete reachable trace: start the game with the peach at (11,10),
eat nine peaches marching RIGHT along row 10 up to (19,10), turn DOWN,
and eat the tenth peach at (19,11).  Each tick's spawner is a legal
`SpawnOk` spawner (`genAt`), so every step is a `Step`. -/

def trace1 : GameState := startGame (genAt ⟨11, 10⟩)

def trace2 : GameState := moveSnake (genAt ⟨12, 10⟩) trace1

def trace3 : GameState := moveSnake (genAt ⟨13, 10⟩) trace2

def trace4 : GameState := moveSnake (genAt ⟨14, 10⟩) trace3

def trace5 : GameState := moveSnake (genAt ⟨15, 10⟩) trace4

def trace6 : GameState := moveSnake (genAt ⟨16, 10⟩) trace5

def trace7 : GameState := moveSnake (genAt ⟨17, 10⟩) trace6

def trace8 : GameState := moveSnake (genAt ⟨18, 10⟩) trace7

def trace9 : GameState := moveSnake (genAt ⟨19, 10⟩) trace8

def trace10 : GameState := moveSnake (genAt ⟨19, 11⟩) trace9

def trace11 : GameState := handleMobileControl Direction.DOWN trace10

def trace12 : GameState := moveSnake (genAt ⟨0, 0⟩) trace11

theorem trace12_reachable : Reachable trace12 :=
  Reachable.step
    (Reachable.step
      (Reachable.step
        (Reachable.step
          (Reachable.step
            (Reachable.step
              (Reachable.step
                (Reachable.step
                  (Reachable.step
                    (Reachable.step
                      (Reachable.step
                        (Reachable.step Reachable.init
                          (Step.startEvent _ (spawnOk_genAt _) _))
                        (Step.tick _ (spawnOk_genAt _) _))
                      (Step.tick _ (spawnOk_genAt _) _))
                    (Step.tick _ (spawnOk_genAt _) _))
                  (Step.tick _ (spawnOk_genAt _) _))
                (Step.tick _ (spawnOk_genAt _) _))
              (Step.tick _ (spawnOk_genAt _) _))
            (Step.tick _ (spawnOk_genAt _) _))
          (Step.tick _ (spawnOk_genAt _) _))
        (Step.tick _ (spawnOk_genAt _) _))
      (Step.mobileEvent Direction.DOWN _))
    (Step.tick _ (spawnOk_genAt _) _)

/-- Claim C1 counterexample: a reachable WON state (the tick on which
the score reaches MAX_PEACHES) in which the peach IS a member of the
body — the consumed cell remains stored as the peach and is the new
head. -/
theorem won_state_peach_in_body :
    Reachable trace12 ∧ trace12.peach ∈ trace12.snake ∧
    phase trace12 = Phase.WON :=
  ⟨trace12_reachable, by decide, by decide⟩

/-! ### reset() -/

/-- Modelled from the spec for comparison only (spec §3: "reset()
reinitializes … Target to a freshly spawned Cell"): like `resetGame` but
with the target produced by the given spawner instead of hardcoded. -/
def resetSpecModel (gen : List Position → Position) : GameState :=
  { snake := INITIAL_SNAKE
    direction := INITIAL_DIRECTION
    peach := gen INITIAL_SNAKE
    gameOver := false
    score := 0
    isPlaying := false }

/-- Claim C8 counterexample: `resetGame` stores the hardcoded target
(15,10); it does not invoke the spawner — a legitimate fresh spawn
(`firstFree`, which at the starting body yields an in-grid,
non-colliding cell) produces a different state. -/
theorem reset_target_hardcoded :
    resetGame.peach = (⟨15, 10⟩ : Position) ∧
    inGrid (firstFree INITIAL_SNAKE) ∧
    firstFree INITIAL_SNAKE ∉ INITIAL_SNAKE ∧
    resetSpecModel firstFree ≠ resetGame := by
  exact ⟨rfl, by decide, by decide, by decide⟩

/-- Claim C8 (amended): `resetGame` atomically reinitializes the whole
state — Body to the single starting cell, Direction to RIGHT, Score to
0, phase IDLE — and sets the Target to the hardcoded default (15,10),
which does not collide with the starting body. -/
theorem resetGame_reinitializes :
    resetGame =
      { snake := [⟨10, 10⟩], direction := Direction.RIGHT, peach := ⟨15, 10⟩,
        gameOver := false, score := 0, isPlaying := false } ∧
    phase resetGame = Phase.IDLE ∧
    resetGame.peach ∉ resetGame.snake := by
  exact ⟨by decide, by decide, by decide⟩

end Snake
